import Mathlib

/-!
# 2D renderer: transform state, transform composition, frame timer, geometry

A shallow embedding of `src/main.cpp`.

Arithmetic model.  The program computes with `float` and `double`.  Every
definition below is polymorphic in a number type `α` and uses the exact field
operations of `α`; the theorems are stated for an arbitrary linear ordered field
(so for `ℚ`, where everything can be evaluated, and for `ℝ`), except those about
the rotation, which need the real cosine and sine and are stated over `ℝ`.
Rounding, infinities and NaN are outside this model.  `int` values are unbounded integers (`Int`):
signed overflow is undefined behaviour in C++ and is outside the model as well.

Library functions used by the program (`std::max`, `glm::radians`,
`glm::translate`, `glm::rotate`, `glm::scale`, the GLFW key and action codes) are
transcribed from the libraries.  `cos`, `sin` and `sqrt` are parameters of the
definitions that call them.
-/

namespace Renderer

/-! ## GLFW constants (from `GLFW/glfw3.h`) -/

def GLFW_RELEASE : Int := 0
def GLFW_PRESS : Int := 1
def GLFW_REPEAT : Int := 2
def GLFW_KEY_E : Int := 69
def GLFW_KEY_Q : Int := 81
def GLFW_KEY_X : Int := 88
def GLFW_KEY_Z : Int := 90
def GLFW_KEY_RIGHT : Int := 262
def GLFW_KEY_LEFT : Int := 263
def GLFW_KEY_DOWN : Int := 264
def GLFW_KEY_UP : Int := 265

/-! ## Transform state (`main.cpp` lines 16-19 and 149-175) -/

/-- The type `glm::vec2`. -/
@[ext]
structure Vec2 (α : Type) where
  x : α
  y : α
deriving DecidableEq, Repr

/-- The three global transformation parameters `translation`, `rotation`, `scale`. -/
@[ext]
structure Pose (α : Type) where
  translation : Vec2 α
  rotation : α
  scale : α
deriving DecidableEq, Repr

/-- The function `std::max(a, b)`: `(a < b) ? b : a`. -/
def stdMax {α : Type} [LT α] [DecidableRel (fun a b : α => a < b)] (a b : α) : α :=
  if a < b then b else a

/-- The function `glm::radians`: degrees times the constant pi/180 as GLM spells it. -/
def radians {α : Type} [LinearOrderedField α] (degrees : α) : α :=
  degrees * 0.01745329251994329576923690768489

/-- Initial values of the globals: `translation(0.0f, 0.0f)`, `rotation = 0.0f`,
`scale = 1.0f`. -/
def initialPose {α : Type} [LinearOrderedField α] : Pose α :=
  { translation := { x := 0.0, y := 0.0 }, rotation := 0.0, scale := 1.0 }

/-- The keyboard callback `key_callback`, acting on the globals.  The window argument
is unused by the source and is dropped. -/
def key_callback {α : Type} [LinearOrderedField α]
    (g : Pose α) (key _scancode action _mods : Int) : Pose α :=
  if action = GLFW_PRESS ∨ action = GLFW_REPEAT then
    let g := if key = GLFW_KEY_UP then
      { g with translation := { g.translation with y := g.translation.y + 0.05 } } else g
    let g := if key = GLFW_KEY_DOWN then
      { g with translation := { g.translation with y := g.translation.y - 0.05 } } else g
    let g := if key = GLFW_KEY_LEFT then
      { g with translation := { g.translation with x := g.translation.x - 0.05 } } else g
    let g := if key = GLFW_KEY_RIGHT then
      { g with translation := { g.translation with x := g.translation.x + 0.05 } } else g
    let g := if key = GLFW_KEY_Q then
      { g with rotation := g.rotation + radians 5.0 } else g
    let g := if key = GLFW_KEY_E then
      { g with rotation := g.rotation - radians 5.0 } else g
    let g := if key = GLFW_KEY_Z then
      { g with scale := g.scale + 0.05 } else g
    let g := if key = GLFW_KEY_X then
      { g with scale := stdMax 0.05 (g.scale - 0.05) } else g
    g
  else g

/-- One key event as GLFW delivers it to the callback. -/
structure KeyEvent where
  key : Int
  scancode : Int
  action : Int
  mods : Int
deriving DecidableEq, Repr

/-- The callback applied to one event. -/
def handleEvent {α : Type} [LinearOrderedField α] (g : Pose α) (e : KeyEvent) : Pose α :=
  key_callback g e.key e.scancode e.action e.mods

/-- The globals after a sequence of key events, starting from `g`. -/
def handleEvents {α : Type} [LinearOrderedField α] (g : Pose α) (es : List KeyEvent) : Pose α :=
  es.foldl handleEvent g

/-! ## Transform composition (`main.cpp` lines 266-271, vertex shader lines 29-35) -/

/-- The type `glm::vec3`. -/
@[ext]
structure Vec3 (α : Type) where
  x : α
  y : α
  z : α
deriving DecidableEq, Repr

/-- The type `glm::vec4`. -/
@[ext]
structure Vec4 (α : Type) where
  x : α
  y : α
  z : α
  w : α
deriving DecidableEq, Repr

/-- The type `glm::mat4`: four columns, `m[0]` to `m[3]`. -/
@[ext]
structure Mat4 (α : Type) where
  c0 : Vec4 α
  c1 : Vec4 α
  c2 : Vec4 α
  c3 : Vec4 α
deriving DecidableEq, Repr

/-- Componentwise sum of two `vec4`. -/
def Vec4.add {α : Type} [LinearOrderedField α] (a b : Vec4 α) : Vec4 α :=
  { x := a.x + b.x, y := a.y + b.y, z := a.z + b.z, w := a.w + b.w }

/-- A `vec4` times a scalar. -/
def Vec4.mulScalar {α : Type} [LinearOrderedField α] (a : Vec4 α) (k : α) : Vec4 α :=
  { x := a.x * k, y := a.y * k, z := a.z * k, w := a.w * k }

/-- A `vec3` times a scalar. -/
def Vec3.mulScalar {α : Type} [LinearOrderedField α] (a : Vec3 α) (k : α) : Vec3 α :=
  { x := a.x * k, y := a.y * k, z := a.z * k }

/-- The constructor `glm::mat4(s)`: `s` on the diagonal, zero elsewhere. -/
def mat4 {α : Type} [LinearOrderedField α] (s : α) : Mat4 α :=
  { c0 := { x := s, y := 0, z := 0, w := 0 }
    c1 := { x := 0, y := s, z := 0, w := 0 }
    c2 := { x := 0, y := 0, z := s, w := 0 }
    c3 := { x := 0, y := 0, z := 0, w := s } }

/-- The function `glm::translate(m, v)`:
`Result = m; Result[3] = m[0] * v[0] + m[1] * v[1] + m[2] * v[2] + m[3]`. -/
def translate {α : Type} [LinearOrderedField α] (m : Mat4 α) (v : Vec3 α) : Mat4 α :=
  { m with
    c3 := (((m.c0.mulScalar v.x).add (m.c1.mulScalar v.y)).add (m.c2.mulScalar v.z)).add m.c3 }

/-- The function `glm::dot` on `vec3`. -/
def dot {α : Type} [LinearOrderedField α] (a b : Vec3 α) : α :=
  a.x * b.x + a.y * b.y + a.z * b.z

/-- The function `glm::inversesqrt`: `1 / sqrt(x)`. -/
def inversesqrt {α : Type} [LinearOrderedField α] (sqrt : α → α) (x : α) : α :=
  1 / sqrt x

/-- The function `glm::normalize` on `vec3`: `v * inversesqrt(dot(v, v))`. -/
def normalize {α : Type} [LinearOrderedField α] (sqrt : α → α) (v : Vec3 α) : Vec3 α :=
  v.mulScalar (inversesqrt sqrt (dot v v))

/-- The function `glm::rotate(m, angle, v)` as in `glm/ext/matrix_transform.inl`. -/
def rotate {α : Type} [LinearOrderedField α] (cos sin sqrt : α → α)
    (m : Mat4 α) (angle : α) (v : Vec3 α) : Mat4 α :=
  let a := angle
  let c := cos a
  let s := sin a
  let axis := normalize sqrt v
  let temp := axis.mulScalar (1 - c)
  let r00 := c + temp.x * axis.x
  let r01 := temp.x * axis.y + s * axis.z
  let r02 := temp.x * axis.z - s * axis.y
  let r10 := temp.y * axis.x - s * axis.z
  let r11 := c + temp.y * axis.y
  let r12 := temp.y * axis.z + s * axis.x
  let r20 := temp.z * axis.x + s * axis.y
  let r21 := temp.z * axis.y - s * axis.x
  let r22 := c + temp.z * axis.z
  { c0 := ((m.c0.mulScalar r00).add (m.c1.mulScalar r01)).add (m.c2.mulScalar r02)
    c1 := ((m.c0.mulScalar r10).add (m.c1.mulScalar r11)).add (m.c2.mulScalar r12)
    c2 := ((m.c0.mulScalar r20).add (m.c1.mulScalar r21)).add (m.c2.mulScalar r22)
    c3 := m.c3 }

/-- The function `glm::scale(m, v)`: column `i` of `m` times `v[i]`, last column kept. -/
def scale {α : Type} [LinearOrderedField α] (m : Mat4 α) (v : Vec3 α) : Mat4 α :=
  { c0 := m.c0.mulScalar v.x
    c1 := m.c1.mulScalar v.y
    c2 := m.c2.mulScalar v.z
    c3 := m.c3 }

/-- The transformation matrix the render loop builds each frame (lines 267-271). -/
def transform {α : Type} [LinearOrderedField α] (cos sin sqrt : α → α) (g : Pose α) : Mat4 α :=
  let transform := mat4 1.0
  let transform := translate transform { x := g.translation.x, y := g.translation.y, z := 0.0 }
  let transform := rotate cos sin sqrt transform g.rotation { x := 0.0, y := 0.0, z := 1.0 }
  let transform := scale transform { x := g.scale, y := g.scale, z := 1.0 }
  transform

/-- Matrix times column vector, `m * v`: the linear combination of the columns of `m`. -/
def Mat4.mulVec {α : Type} [LinearOrderedField α] (m : Mat4 α) (v : Vec4 α) : Vec4 α :=
  (((m.c0.mulScalar v.x).add (m.c1.mulScalar v.y)).add (m.c2.mulScalar v.z)).add
    (m.c3.mulScalar v.w)

/-- The vertex shader: `gl_Position = transform * vec4(position, 0.0, 1.0)`. -/
def vertexShader {α : Type} [LinearOrderedField α] (transform : Mat4 α) (position : Vec2 α) :
    Vec4 α :=
  transform.mulVec { x := position.x, y := position.y, z := 0.0, w := 1.0 }

/-- A `mat4` as a Mathlib matrix: entry `(i, j)` is component `i` of column `j`. -/
def Mat4.toMatrix {α : Type} (m : Mat4 α) : Matrix (Fin 4) (Fin 4) α :=
  !![m.c0.x, m.c1.x, m.c2.x, m.c3.x;
     m.c0.y, m.c1.y, m.c2.y, m.c3.y;
     m.c0.z, m.c1.z, m.c2.z, m.c3.z;
     m.c0.w, m.c1.w, m.c2.w, m.c3.w]

/-- Specification side: the homogeneous translation matrix `Translate(tx, ty)`. -/
def specTranslate {α : Type} [LinearOrderedField α] (tx ty : α) : Matrix (Fin 4) (Fin 4) α :=
  !![1, 0, 0, tx;
     0, 1, 0, ty;
     0, 0, 1, 0;
     0, 0, 0, 1]

/-- Specification side: the rotation about the Z axis with cosine `c` and sine `s`. -/
def specRotateZ {α : Type} [LinearOrderedField α] (c s : α) : Matrix (Fin 4) (Fin 4) α :=
  !![c, -s, 0, 0;
     s, c, 0, 0;
     0, 0, 1, 0;
     0, 0, 0, 1]

/-- Specification side: the scaling matrix `Scale(sx, sy, sz)`. -/
def specScale {α : Type} [LinearOrderedField α] (sx sy sz : α) : Matrix (Fin 4) (Fin 4) α :=
  !![sx, 0, 0, 0;
     0, sy, 0, 0;
     0, 0, sz, 0;
     0, 0, 0, 1]

/-! ## Frame timer (`main.cpp` lines 21-23 and 231-254) -/

/-- The timing globals `lastTime` and `nbFrames`, with what the loop has emitted so far:
the lines appended to the CSV file, each `(currentTime, fps)`, and the FPS value of the
last window title set. -/
structure FrameTimer (α : Type) where
  lastTime : α
  nbFrames : Int
  csvFile : List (α × α)
  title : Option α
deriving DecidableEq, Repr

/-- The timer state when the render loop is entered: `lastTime = glfwGetTime()` (line 232),
`nbFrames = 0` (line 23), nothing emitted. -/
def FrameTimer.init {α : Type} (startTime : α) : FrameTimer α :=
  { lastTime := startTime, nbFrames := 0, csvFile := [], title := none }

/-- The frame-timer part of one loop iteration (lines 238-254); `currentTime` is the value
`glfwGetTime()` returns in this iteration. -/
def frameTimerStep {α : Type} [LinearOrderedField α] (t : FrameTimer α) (currentTime : α) :
    FrameTimer α :=
  let nbFrames := t.nbFrames + 1
  if currentTime - t.lastTime ≥ 1.0 then
    let fps := (nbFrames : α) / (currentTime - t.lastTime)
    { lastTime := currentTime
      nbFrames := 0
      csvFile := t.csvFile ++ [(currentTime, fps)]
      title := some fps }
  else
    { t with nbFrames := nbFrames }

/-- The frame timer after the loop has run one iteration per clock reading. -/
def renderLoop {α : Type} [LinearOrderedField α] (startTime : α) (readings : List α) :
    FrameTimer α :=
  readings.foldl frameTimerStep (FrameTimer.init startTime)

/-- Timestamps of the emitted samples, oldest first. -/
def timestamps {α : Type} (csv : List (α × α)) : List α :=
  csv.map Prod.fst

/-- Lengths of the windows the samples of a log close, the first window starting at
`start` and every later one at the previous sample's timestamp. -/
def windowLengths {α : Type} [LinearOrderedField α] (start : α) : List (α × α) → List α
  | [] => []
  | (t, _) :: rest => (t - start) :: windowLengths t rest

/-- Sum over the samples of a log of FPS times the length of the sample's window. -/
def countedFrames {α : Type} [LinearOrderedField α] (start : α) : List (α × α) → α
  | [] => 0
  | (t, fps) :: rest => fps * (t - start) + countedFrames t rest

/-- Start of the window that is open after the samples of a log: the timestamp of the last
sample, or `start` when the log is empty. -/
def windowStart {α : Type} (start : α) : List (α × α) → α
  | [] => start
  | (t, _) :: rest => windowStart t rest

/-! ## Geometry and draw calls (`main.cpp` lines 97-147 and 277-290) -/

/-- The array `vertices` of `createRectangle`: 2 floats per vertex. -/
def createRectangle {α : Type} [LinearOrderedField α] : List α :=
  [-0.5, -0.5,
    0.5, -0.5,
    0.5, 0.5,
    0.5, 0.5,
   -0.5, 0.5,
   -0.5, -0.5]

/-- The loop `for (int i = 0; i <= segments; ++i)` of `createCircle`, from index `i` on. -/
def createCircleLoop {α : Type} [LinearOrderedField α] (cos sin : α → α) (segments : Int)
    (angleStep : α) (i : Int) (vertices : List α) : List α :=
  if i ≤ segments then
    let angle := (i : α) * angleStep
    createCircleLoop cos sin segments angleStep (i + 1)
      (vertices ++ [0.5 * cos angle, 0.5 * sin angle])
  else vertices
termination_by (segments + 1 - i).toNat
decreasing_by omega

/-- The vector `vertices` built by `createCircle(segments)`: 2 floats per vertex. -/
def createCircle {α : Type} [LinearOrderedField α] (cos sin : α → α) (segments : Int := 50) :
    List α :=
  let vertices : List α := [0.0, 0.0]
  let angleStep : α := 2.0 * 3.1415926 / (segments : α)
  createCircleLoop cos sin segments angleStep 0 vertices

/-- Number of vertices in a buffer laid out by
`glVertexAttribPointer(0, 2, GL_FLOAT, GL_FALSE, 2 * sizeof(GLfloat), 0)`. -/
def vertexCount {α : Type} (vertices : List α) : Nat :=
  vertices.length / 2

/-- Primitive topologies used by the draw calls. -/
inductive Primitive where
  | GL_TRIANGLES
  | GL_TRIANGLE_FAN
deriving DecidableEq, Repr

/-- Arguments of a call `glDrawArrays(mode, first, count)`. -/
structure DrawCall where
  mode : Primitive
  first : Int
  count : Int
deriving DecidableEq, Repr

/-- The rectangle draw call, `glDrawArrays(GL_TRIANGLES, 0, 6)` (line 281). -/
def rectangleDraw : DrawCall :=
  { mode := Primitive.GL_TRIANGLES, first := 0, count := 6 }

/-- The circle draw call, `glDrawArrays(GL_TRIANGLE_FAN, 0, 52)` (line 290). -/
def circleDraw : DrawCall :=
  { mode := Primitive.GL_TRIANGLE_FAN, first := 0, count := 52 }

/-! ## Helper lemmas: the callback, key by key -/

section KeyLemmas
variable {α : Type} [LinearOrderedField α]

theorem stdMax_eq_max (a b : α) : stdMax a b = max a b := by
  unfold stdMax
  split_ifs with h
  · exact (max_eq_right h.le).symm
  · exact (max_eq_left (not_lt.mp h)).symm

theorem step_pos : (0 : α) < 0.05 := by norm_num

theorem radians_five_pos : (0 : α) < radians 5.0 := by
  unfold radians; norm_num

theorem key_callback_inactive (g : Pose α) (key scancode action mods : Int)
    (h : ¬ (action = GLFW_PRESS ∨ action = GLFW_REPEAT)) :
    key_callback g key scancode action mods = g := by
  unfold key_callback
  rw [if_neg h]

theorem key_callback_unmapped (g : Pose α) (key scancode action mods : Int)
    (h1 : key ≠ GLFW_KEY_UP) (h2 : key ≠ GLFW_KEY_DOWN) (h3 : key ≠ GLFW_KEY_LEFT)
    (h4 : key ≠ GLFW_KEY_RIGHT) (h5 : key ≠ GLFW_KEY_Q) (h6 : key ≠ GLFW_KEY_E)
    (h7 : key ≠ GLFW_KEY_Z) (h8 : key ≠ GLFW_KEY_X) :
    key_callback g key scancode action mods = g := by
  unfold key_callback
  simp only [if_neg h1, if_neg h2, if_neg h3, if_neg h4, if_neg h5, if_neg h6, if_neg h7,
    if_neg h8, ite_self]

theorem key_callback_up (g : Pose α) (scancode action mods : Int)
    (h : action = GLFW_PRESS ∨ action = GLFW_REPEAT) :
    key_callback g GLFW_KEY_UP scancode action mods =
      { g with translation := { g.translation with y := g.translation.y + 0.05 } } := by
  unfold key_callback
  rw [if_pos h]
  simp [GLFW_KEY_UP, GLFW_KEY_DOWN, GLFW_KEY_LEFT, GLFW_KEY_RIGHT, GLFW_KEY_Q, GLFW_KEY_E,
    GLFW_KEY_Z, GLFW_KEY_X]

theorem key_callback_down (g : Pose α) (scancode action mods : Int)
    (h : action = GLFW_PRESS ∨ action = GLFW_REPEAT) :
    key_callback g GLFW_KEY_DOWN scancode action mods =
      { g with translation := { g.translation with y := g.translation.y - 0.05 } } := by
  unfold key_callback
  rw [if_pos h]
  simp [GLFW_KEY_UP, GLFW_KEY_DOWN, GLFW_KEY_LEFT, GLFW_KEY_RIGHT, GLFW_KEY_Q, GLFW_KEY_E,
    GLFW_KEY_Z, GLFW_KEY_X]

theorem key_callback_left (g : Pose α) (scancode action mods : Int)
    (h : action = GLFW_PRESS ∨ action = GLFW_REPEAT) :
    key_callback g GLFW_KEY_LEFT scancode action mods =
      { g with translation := { g.translation with x := g.translation.x - 0.05 } } := by
  unfold key_callback
  rw [if_pos h]
  simp [GLFW_KEY_UP, GLFW_KEY_DOWN, GLFW_KEY_LEFT, GLFW_KEY_RIGHT, GLFW_KEY_Q, GLFW_KEY_E,
    GLFW_KEY_Z, GLFW_KEY_X]

theorem key_callback_right (g : Pose α) (scancode action mods : Int)
    (h : action = GLFW_PRESS ∨ action = GLFW_REPEAT) :
    key_callback g GLFW_KEY_RIGHT scancode action mods =
      { g with translation := { g.translation with x := g.translation.x + 0.05 } } := by
  unfold key_callback
  rw [if_pos h]
  simp [GLFW_KEY_UP, GLFW_KEY_DOWN, GLFW_KEY_LEFT, GLFW_KEY_RIGHT, GLFW_KEY_Q, GLFW_KEY_E,
    GLFW_KEY_Z, GLFW_KEY_X]

theorem key_callback_q (g : Pose α) (scancode action mods : Int)
    (h : action = GLFW_PRESS ∨ action = GLFW_REPEAT) :
    key_callback g GLFW_KEY_Q scancode action mods =
      { g with rotation := g.rotation + radians 5.0 } := by
  unfold key_callback
  rw [if_pos h]
  simp [GLFW_KEY_UP, GLFW_KEY_DOWN, GLFW_KEY_LEFT, GLFW_KEY_RIGHT, GLFW_KEY_Q, GLFW_KEY_E,
    GLFW_KEY_Z, GLFW_KEY_X]

theorem key_callback_e (g : Pose α) (scancode action mods : Int)
    (h : action = GLFW_PRESS ∨ action = GLFW_REPEAT) :
    key_callback g GLFW_KEY_E scancode action mods =
      { g with rotation := g.rotation - radians 5.0 } := by
  unfold key_callback
  rw [if_pos h]
  simp [GLFW_KEY_UP, GLFW_KEY_DOWN, GLFW_KEY_LEFT, GLFW_KEY_RIGHT, GLFW_KEY_Q, GLFW_KEY_E,
    GLFW_KEY_Z, GLFW_KEY_X]

theorem key_callback_z (g : Pose α) (scancode action mods : Int)
    (h : action = GLFW_PRESS ∨ action = GLFW_REPEAT) :
    key_callback g GLFW_KEY_Z scancode action mods =
      { g with scale := g.scale + 0.05 } := by
  unfold key_callback
  rw [if_pos h]
  simp [GLFW_KEY_UP, GLFW_KEY_DOWN, GLFW_KEY_LEFT, GLFW_KEY_RIGHT, GLFW_KEY_Q, GLFW_KEY_E,
    GLFW_KEY_Z, GLFW_KEY_X]

theorem key_callback_x (g : Pose α) (scancode action mods : Int)
    (h : action = GLFW_PRESS ∨ action = GLFW_REPEAT) :
    key_callback g GLFW_KEY_X scancode action mods =
      { g with scale := stdMax 0.05 (g.scale - 0.05) } := by
  unfold key_callback
  rw [if_pos h]
  simp [GLFW_KEY_UP, GLFW_KEY_DOWN, GLFW_KEY_LEFT, GLFW_KEY_RIGHT, GLFW_KEY_Q, GLFW_KEY_E,
    GLFW_KEY_Z, GLFW_KEY_X]

/-- Every call of the callback is the identity or one of the eight mutators. -/
theorem key_callback_cases (g : Pose α) (key scancode action mods : Int) :
    key_callback g key scancode action mods = g ∨
    (action = GLFW_PRESS ∨ action = GLFW_REPEAT) ∧
    ((key = GLFW_KEY_UP ∧ key_callback g key scancode action mods =
        { g with translation := { g.translation with y := g.translation.y + 0.05 } }) ∨
     (key = GLFW_KEY_DOWN ∧ key_callback g key scancode action mods =
        { g with translation := { g.translation with y := g.translation.y - 0.05 } }) ∨
     (key = GLFW_KEY_LEFT ∧ key_callback g key scancode action mods =
        { g with translation := { g.translation with x := g.translation.x - 0.05 } }) ∨
     (key = GLFW_KEY_RIGHT ∧ key_callback g key scancode action mods =
        { g with translation := { g.translation with x := g.translation.x + 0.05 } }) ∨
     (key = GLFW_KEY_Q ∧ key_callback g key scancode action mods =
        { g with rotation := g.rotation + radians 5.0 }) ∨
     (key = GLFW_KEY_E ∧ key_callback g key scancode action mods =
        { g with rotation := g.rotation - radians 5.0 }) ∨
     (key = GLFW_KEY_Z ∧ key_callback g key scancode action mods =
        { g with scale := g.scale + 0.05 }) ∨
     (key = GLFW_KEY_X ∧ key_callback g key scancode action mods =
        { g with scale := stdMax 0.05 (g.scale - 0.05) })) := by
  by_cases ha : action = GLFW_PRESS ∨ action = GLFW_REPEAT
  swap
  · exact Or.inl (key_callback_inactive g key scancode action mods ha)
  by_cases h1 : key = GLFW_KEY_UP
  · subst h1; exact Or.inr ⟨ha, Or.inl ⟨rfl, key_callback_up g scancode action mods ha⟩⟩
  by_cases h2 : key = GLFW_KEY_DOWN
  · subst h2
    exact Or.inr ⟨ha, Or.inr (Or.inl ⟨rfl, key_callback_down g scancode action mods ha⟩)⟩
  by_cases h3 : key = GLFW_KEY_LEFT
  · subst h3
    exact Or.inr ⟨ha, Or.inr (Or.inr (Or.inl ⟨rfl, key_callback_left g scancode action mods ha⟩))⟩
  by_cases h4 : key = GLFW_KEY_RIGHT
  · subst h4
    exact Or.inr ⟨ha, Or.inr (Or.inr (Or.inr (Or.inl
      ⟨rfl, key_callback_right g scancode action mods ha⟩)))⟩
  by_cases h5 : key = GLFW_KEY_Q
  · subst h5
    exact Or.inr ⟨ha, Or.inr (Or.inr (Or.inr (Or.inr (Or.inl
      ⟨rfl, key_callback_q g scancode action mods ha⟩))))⟩
  by_cases h6 : key = GLFW_KEY_E
  · subst h6
    exact Or.inr ⟨ha, Or.inr (Or.inr (Or.inr (Or.inr (Or.inr (Or.inl
      ⟨rfl, key_callback_e g scancode action mods ha⟩)))))⟩
  by_cases h7 : key = GLFW_KEY_Z
  · subst h7
    exact Or.inr ⟨ha, Or.inr (Or.inr (Or.inr (Or.inr (Or.inr (Or.inr (Or.inl
      ⟨rfl, key_callback_z g scancode action mods ha⟩))))))⟩
  by_cases h8 : key = GLFW_KEY_X
  · subst h8
    exact Or.inr ⟨ha, Or.inr (Or.inr (Or.inr (Or.inr (Or.inr (Or.inr (Or.inr
      ⟨rfl, key_callback_x g scancode action mods ha⟩))))))⟩
  exact Or.inl (key_callback_unmapped g key scancode action mods h1 h2 h3 h4 h5 h6 h7 h8)

/-- One call of the callback keeps the scale at or above the floor. -/
theorem key_callback_scale_ge (g : Pose α) (key scancode action mods : Int)
    (h : 0.05 ≤ g.scale) : 0.05 ≤ (key_callback g key scancode action mods).scale := by
  have hs := step_pos (α := α)
  rcases key_callback_cases g key scancode action mods with
    e | ⟨_, ⟨_, e⟩ | ⟨_, e⟩ | ⟨_, e⟩ | ⟨_, e⟩ | ⟨_, e⟩ | ⟨_, e⟩ | ⟨_, e⟩ | ⟨_, e⟩⟩ <;> rw [e]
  all_goals first
    | exact h
    | (show (0.05 : α) ≤ g.scale + 0.05; linarith)
    | (show (0.05 : α) ≤ stdMax 0.05 (g.scale - 0.05)
       rw [stdMax_eq_max]; exact le_max_left _ _)

theorem handleEvents_scale_ge (es : List KeyEvent) (g : Pose α) (h : 0.05 ≤ g.scale) :
    0.05 ≤ (handleEvents g es).scale := by
  induction es generalizing g with
  | nil => exact h
  | cons e es ih =>
    exact ih (handleEvent g e) (key_callback_scale_ge g e.key e.scancode e.action e.mods h)

/-- Scale after `es.length` scale-down presses. -/
theorem handleEvents_scale_down (es : List KeyEvent) (g : Pose α) (h : 0.05 ≤ g.scale)
    (hkeys : ∀ e ∈ es, e.key = GLFW_KEY_X ∧ (e.action = GLFW_PRESS ∨ e.action = GLFW_REPEAT)) :
    (handleEvents g es).scale = max 0.05 (g.scale - es.length * 0.05) := by
  have hs := step_pos (α := α)
  induction es generalizing g with
  | nil => simp [handleEvents, max_eq_right h]
  | cons e es ih =>
    obtain ⟨hk, ha⟩ := hkeys e (List.mem_cons_self e es)
    have hstep : handleEvent g e = { g with scale := stdMax 0.05 (g.scale - 0.05) } := by
      unfold handleEvent
      rw [hk]
      exact key_callback_x g e.scancode e.action e.mods ha
    have hrest := ih (handleEvent g e)
      (key_callback_scale_ge g e.key e.scancode e.action e.mods h)
      (fun e' he' => hkeys e' (List.mem_cons_of_mem e he'))
    have hfold : handleEvents g (e :: es) = handleEvents (handleEvent g e) es := rfl
    rw [hfold, hrest, hstep]
    show max (0.05 : α) (stdMax 0.05 (g.scale - 0.05) - (es.length : α) * 0.05) =
      max 0.05 (g.scale - ((e :: es).length : α) * 0.05)
    rw [stdMax_eq_max, List.length_cons, Nat.cast_succ]
    have hn : (0 : α) ≤ (es.length : α) * 0.05 :=
      mul_nonneg (Nat.cast_nonneg _) hs.le
    rcases le_total (0.05 : α) (g.scale - 0.05) with h1 | h1
    · rw [max_eq_right h1]
      congr 1
      ring
    · rw [max_eq_left h1, max_eq_left (by linarith), max_eq_left (by nlinarith)]

theorem stdMax_twice_iff (x : α) :
    stdMax 0.05 (stdMax 0.05 (x - 0.05) - 0.05) = stdMax 0.05 (x - 0.05) ↔ x ≤ 0.10 := by
  have hs := step_pos (α := α)
  have h10 : (0.10 : α) = 0.05 + 0.05 := by norm_num
  rw [stdMax_eq_max, stdMax_eq_max, h10]
  rcases le_total (0.05 : α) (x - 0.05) with h1 | h1
  · rw [max_eq_right h1]
    constructor
    · intro h
      have h2 : (0.05 : α) ≤ x - 0.05 - 0.05 ∨ x - 0.05 - 0.05 ≤ 0.05 := le_total _ _
      rcases h2 with h2 | h2
      · rw [max_eq_right h2] at h; linarith
      · rw [max_eq_left h2] at h; linarith
    · intro h
      have h3 : x - 0.05 = 0.05 := le_antisymm (by linarith) h1
      rw [h3, sub_self, max_eq_left hs.le]
  · rw [max_eq_left h1, sub_self, max_eq_left hs.le]
    exact ⟨fun _ => by linarith, fun _ => rfl⟩

end KeyLemmas

/-! ## Helper lemmas: the transformation matrix -/

/-- The matrix the render loop builds, column by column, when `sqrt 1 = 1`. -/
theorem transform_columns {α : Type} [LinearOrderedField α] (cos sin sqrt : α → α)
    (hsqrt : sqrt 1 = 1) (g : Pose α) :
    transform cos sin sqrt g =
      { c0 := { x := g.scale * cos g.rotation, y := g.scale * sin g.rotation, z := 0, w := 0 }
        c1 := { x := -(g.scale * sin g.rotation), y := g.scale * cos g.rotation, z := 0, w := 0 }
        c2 := { x := 0, y := 0, z := 1, w := 0 }
        c3 := { x := g.translation.x, y := g.translation.y, z := 0, w := 1 } } := by
  have h0 : (0.0 : α) = 0 := by norm_num
  have h1 : (1.0 : α) = 1 := by norm_num
  simp only [transform, scale, rotate, translate, mat4, normalize, inversesqrt, dot,
    Vec4.add, Vec4.mulScalar, Vec3.mulScalar, h0, h1]
  simp only [mul_zero, zero_mul, add_zero, zero_add, mul_one, one_mul, hsqrt, div_one,
    sub_zero, zero_sub]
  ext <;> simp <;> ring

/-! ## Helper lemmas: the frame timer -/

theorem windowStart_snoc {α : Type} (start : α) (l : List (α × α)) (c f : α) :
    windowStart start (l ++ [(c, f)]) = c := by
  induction l generalizing start with
  | nil => rfl
  | cons a l ih => obtain ⟨t, g⟩ := a; exact ih t

section TimerLemmas
variable {α : Type} [LinearOrderedField α]

theorem frameTimerStep_emit (t : FrameTimer α) (currentTime : α)
    (h : currentTime - t.lastTime ≥ 1.0) :
    frameTimerStep t currentTime =
      { lastTime := currentTime
        nbFrames := 0
        csvFile := t.csvFile ++
          [(currentTime, ((t.nbFrames + 1 : Int) : α) / (currentTime - t.lastTime))]
        title := some (((t.nbFrames + 1 : Int) : α) / (currentTime - t.lastTime)) } := by
  unfold frameTimerStep
  simp only [if_pos h]

theorem frameTimerStep_quiet (t : FrameTimer α) (currentTime : α)
    (h : ¬ currentTime - t.lastTime ≥ 1.0) :
    frameTimerStep t currentTime = { t with nbFrames := t.nbFrames + 1 } := by
  unfold frameTimerStep
  simp only [if_neg h]

theorem renderLoop_snoc (start : α) (readings : List α) (c : α) :
    renderLoop start (readings ++ [c]) = frameTimerStep (renderLoop start readings) c := by
  unfold renderLoop
  rw [List.foldl_append]
  rfl

theorem windowLengths_snoc (start : α) (l : List (α × α)) (c f : α) :
    windowLengths start (l ++ [(c, f)]) = windowLengths start l ++ [c - windowStart start l] := by
  induction l generalizing start with
  | nil => rfl
  | cons a l ih =>
    obtain ⟨t, g⟩ := a
    show (t - start) :: windowLengths t (l ++ [(c, f)]) = _
    rw [ih t]
    rfl

theorem countedFrames_snoc (start : α) (l : List (α × α)) (c f : α) :
    countedFrames start (l ++ [(c, f)]) =
      countedFrames start l + f * (c - windowStart start l) := by
  induction l generalizing start with
  | nil => simp [countedFrames, windowStart]
  | cons a l ih =>
    obtain ⟨t, g⟩ := a
    show g * (t - start) + countedFrames t (l ++ [(c, f)]) = _
    rw [ih t]
    show _ = g * (t - start) + countedFrames t l + f * (c - windowStart t l)
    ring

/-- The loop invariant of the frame timer. -/
theorem renderLoop_invariant (start : α) (readings : List α) :
    (renderLoop start readings).lastTime =
      windowStart start (renderLoop start readings).csvFile ∧
    (∀ w ∈ windowLengths start (renderLoop start readings).csvFile, (1.0 : α) ≤ w) ∧
    countedFrames start (renderLoop start readings).csvFile +
      (((renderLoop start readings).nbFrames : Int) : α) = (readings.length : α) ∧
    0 ≤ (renderLoop start readings).nbFrames ∧
    (renderLoop start readings).nbFrames ≤ (readings.length : Int) ∧
    (timestamps (renderLoop start readings).csvFile).Sublist readings := by
  induction readings using List.reverseRecOn with
  | nil =>
    refine ⟨rfl, ?_, ?_, le_refl _, le_refl _, ?_⟩
    · intro w hw; cases hw
    · simp [renderLoop, FrameTimer.init, countedFrames]
    · exact List.Sublist.slnil
  | append_singleton rs c ih =>
    obtain ⟨h1, h2, h3, h4, h5, h6⟩ := ih
    rw [renderLoop_snoc]
    by_cases hc : c - (renderLoop start rs).lastTime ≥ 1.0
    · rw [frameTimerStep_emit _ _ hc]
      refine ⟨?_, ?_, ?_, le_refl _, ?_, ?_⟩
      · exact (windowStart_snoc start _ c _).symm
      · intro w hw
        rw [windowLengths_snoc, List.mem_append, List.mem_singleton] at hw
        rcases hw with hw | hw
        · exact h2 w hw
        · rw [hw, ← h1]; exact hc
      · show countedFrames start (_ ++ [_]) + ((0 : Int) : α) = _
        rw [countedFrames_snoc, ← h1, List.length_append, List.length_singleton]
        have hpos : c - (renderLoop start rs).lastTime ≠ 0 := by
          have h10 : (0 : α) < 1.0 := by norm_num
          exact ne_of_gt (lt_of_lt_of_le h10 hc)
        rw [div_mul_cancel₀ _ hpos]
        push_cast
        linarith
      · show (0 : Int) ≤ ((rs ++ [c]).length : Int)
        exact Int.natCast_nonneg _
      · show (timestamps (_ ++ [_])).Sublist (rs ++ [c])
        unfold timestamps
        rw [List.map_append]
        exact List.Sublist.append h6 (List.Sublist.refl _)
    · rw [frameTimerStep_quiet _ _ hc]
      refine ⟨h1, h2, ?_, ?_, ?_, ?_⟩
      · show countedFrames start (renderLoop start rs).csvFile +
          (((renderLoop start rs).nbFrames + 1 : Int) : α) = _
        rw [List.length_append, List.length_singleton]
        push_cast
        linarith
      · show 0 ≤ (renderLoop start rs).nbFrames + 1
        omega
      · show (renderLoop start rs).nbFrames + 1 ≤ ((rs ++ [c]).length : Int)
        rw [List.length_append, List.length_singleton]
        push_cast
        omega
      · exact h6.trans (List.sublist_append_left rs [c])

/-- A log whose windows are all at least 1.0 long has timestamps that climb by at least
1.0 from `start` on. -/
theorem chain_of_windowLengths (start : α) (l : List (α × α))
    (h : ∀ w ∈ windowLengths start l, (1.0 : α) ≤ w) :
    List.Chain (fun a b => b - a ≥ 1.0) start (timestamps l) := by
  induction l generalizing start with
  | nil => exact List.Chain.nil
  | cons a l ih =>
    obtain ⟨t, g⟩ := a
    refine List.Chain.cons ?_ (ih t ?_)
    · exact h (t - start) (List.mem_cons_self _ _)
    · intro w hw
      exact h w (List.mem_cons_of_mem _ hw)

end TimerLemmas

/-! ## Helper lemmas: the circle loop -/

/-- The circle loop with `k` iterations left appends `k` ring vertices. -/
theorem createCircleLoop_eq {α : Type} [LinearOrderedField α] (cos sin : α → α)
    (segments : Int) (angleStep : α) (k : Nat) :
    ∀ (i : Int) (vertices : List α), i + (k : Int) = segments + 1 →
      createCircleLoop cos sin segments angleStep i vertices =
        vertices ++ (List.range k).flatMap (fun j =>
          [0.5 * cos (((i + (j : Int) : Int) : α) * angleStep),
           0.5 * sin (((i + (j : Int) : Int) : α) * angleStep)]) := by
  induction k with
  | zero =>
    intro i vertices h
    have hi : ¬ i ≤ segments := by
      simp only [Nat.cast_zero, add_zero] at h
      omega
    rw [createCircleLoop, if_neg hi]
    simp
  | succ k ih =>
    intro i vertices h
    have hi : i ≤ segments := by
      push_cast at h
      omega
    rw [createCircleLoop, if_pos hi]
    simp only []
    rw [ih (i + 1) _ (by push_cast at h ⊢; omega), List.range_succ_eq_map,
      List.flatMap_cons, List.flatMap_map, List.append_assoc]
    congr 1
    simp only [Nat.cast_zero, add_zero, List.cons_append, List.nil_append, List.singleton_append,
      Nat.succ_eq_add_one, Nat.cast_add, Nat.cast_one]
    congr 3
    funext j
    have e : i + 1 + (j : Int) = i + ((j : Int) + 1) := by ring
    rw [e]

/-! ## Claims about the transform state -/

/-- C1: starting from the initial pose, after every event of every finite sequence of key
events (any key, any action) handled by `key_callback`, the scale is at least 0.05, hence
strictly positive.  `es.take n` is the sequence up to its `n`-th event. -/
theorem scale_never_below_floor {α : Type} [LinearOrderedField α] (es : List KeyEvent)
    (n : Nat) :
    (0.05 : α) ≤ (handleEvents initialPose (es.take n)).scale ∧
    (0 : α) < (handleEvents initialPose (es.take n)).scale := by
  have h0 : (0.05 : α) ≤ (initialPose : Pose α).scale := by
    show (0.05 : α) ≤ 1.0
    norm_num
  have h := handleEvents_scale_ge (es.take n) (initialPose : Pose α) h0
  exact ⟨h, lt_of_lt_of_le step_pos h⟩

/-- C5: starting from scale 1.0, one hundred scale-down events in a row (key X, each a
press or a repeat) leave the scale exactly at the floor 0.05, which is neither zero nor
negative. -/
theorem hundred_scale_downs_reach_floor {α : Type} [LinearOrderedField α]
    (es : List KeyEvent) (hlen : es.length = 100)
    (hkeys : ∀ e ∈ es, e.key = GLFW_KEY_X ∧ (e.action = GLFW_PRESS ∨ e.action = GLFW_REPEAT)) :
    (handleEvents (initialPose : Pose α) es).scale = 0.05 ∧
    (0 : α) < (handleEvents (initialPose : Pose α) es).scale := by
  have h0 : (0.05 : α) ≤ (initialPose : Pose α).scale := by
    show (0.05 : α) ≤ 1.0
    norm_num
  have h := handleEvents_scale_down es (initialPose : Pose α) h0 hkeys
  have hval : (handleEvents (initialPose : Pose α) es).scale = 0.05 := by
    rw [h, hlen]
    show max (0.05 : α) (1.0 - ((100 : ℕ) : α) * 0.05) = 0.05
    norm_num
  exact ⟨hval, by rw [hval]; exact step_pos⟩

/-- Witness for C5: one hundred presses of X, evaluated over the rationals. -/
theorem hundred_scale_downs_reach_floor_witness :
    (handleEvents (initialPose : Pose ℚ)
      (List.replicate 100 { key := GLFW_KEY_X, scancode := 0, action := GLFW_PRESS, mods := 0 })).scale
      = 0.05 ∧
    (0 : ℚ) < (handleEvents (initialPose : Pose ℚ)
      (List.replicate 100 { key := GLFW_KEY_X, scancode := 0, action := GLFW_PRESS, mods := 0 })).scale :=
  hundred_scale_downs_reach_floor _ (List.length_replicate 100 _)
    (fun e he => by
      rw [List.eq_of_mem_replicate he]
      exact ⟨rfl, Or.inl rfl⟩)

/-- C7: a release (an action that is neither press nor repeat) and a key that is none of
Up, Down, Left, Right, Q, E, Z, X leave the pose unchanged; a press or repeat of a
recognised key sets the one component mapped to it (Up/Down: `translation.y`, Left/Right:
`translation.x`, Q/E: `rotation`, Z/X: `scale`) and leaves every other component
unchanged. -/
theorem key_callback_frame {α : Type} [LinearOrderedField α] (g : Pose α)
    (key scancode action mods : Int) :
    (¬ (action = GLFW_PRESS ∨ action = GLFW_REPEAT) →
      key_callback g key scancode action mods = g) ∧
    (action = GLFW_RELEASE → key_callback g key scancode action mods = g) ∧
    (key ≠ GLFW_KEY_UP ∧ key ≠ GLFW_KEY_DOWN ∧ key ≠ GLFW_KEY_LEFT ∧ key ≠ GLFW_KEY_RIGHT ∧
      key ≠ GLFW_KEY_Q ∧ key ≠ GLFW_KEY_E ∧ key ≠ GLFW_KEY_Z ∧ key ≠ GLFW_KEY_X →
      key_callback g key scancode action mods = g) ∧
    (key = GLFW_KEY_UP ∨ key = GLFW_KEY_DOWN →
      (key_callback g key scancode action mods).translation.x = g.translation.x ∧
      (key_callback g key scancode action mods).rotation = g.rotation ∧
      (key_callback g key scancode action mods).scale = g.scale) ∧
    (key = GLFW_KEY_LEFT ∨ key = GLFW_KEY_RIGHT →
      (key_callback g key scancode action mods).translation.y = g.translation.y ∧
      (key_callback g key scancode action mods).rotation = g.rotation ∧
      (key_callback g key scancode action mods).scale = g.scale) ∧
    (key = GLFW_KEY_Q ∨ key = GLFW_KEY_E →
      (key_callback g key scancode action mods).translation = g.translation ∧
      (key_callback g key scancode action mods).scale = g.scale) ∧
    (key = GLFW_KEY_Z ∨ key = GLFW_KEY_X →
      (key_callback g key scancode action mods).translation = g.translation ∧
      (key_callback g key scancode action mods).rotation = g.rotation) ∧
    (action = GLFW_PRESS ∨ action = GLFW_REPEAT →
      (key = GLFW_KEY_UP →
        (key_callback g key scancode action mods).translation.y = g.translation.y + 0.05) ∧
      (key = GLFW_KEY_DOWN →
        (key_callback g key scancode action mods).translation.y = g.translation.y - 0.05) ∧
      (key = GLFW_KEY_LEFT →
        (key_callback g key scancode action mods).translation.x = g.translation.x - 0.05) ∧
      (key = GLFW_KEY_RIGHT →
        (key_callback g key scancode action mods).translation.x = g.translation.x + 0.05) ∧
      (key = GLFW_KEY_Q →
        (key_callback g key scancode action mods).rotation = g.rotation + radians 5.0) ∧
      (key = GLFW_KEY_E →
        (key_callback g key scancode action mods).rotation = g.rotation - radians 5.0) ∧
      (key = GLFW_KEY_Z →
        (key_callback g key scancode action mods).scale = g.scale + 0.05) ∧
      (key = GLFW_KEY_X →
        (key_callback g key scancode action mods).scale = stdMax 0.05 (g.scale - 0.05))) := by
  refine ⟨key_callback_inactive g key scancode action mods, ?_, ?_, ?_, ?_, ?_, ?_, ?_⟩
  · intro hr
    apply key_callback_inactive
    rw [hr]
    decide
  · rintro ⟨h1, h2, h3, h4, h5, h6, h7, h8⟩
    exact key_callback_unmapped g key scancode action mods h1 h2 h3 h4 h5 h6 h7 h8
  · intro hk
    by_cases ha : action = GLFW_PRESS ∨ action = GLFW_REPEAT
    · rcases hk with hk | hk <;> subst hk
      · rw [key_callback_up g scancode action mods ha]; exact ⟨rfl, rfl, rfl⟩
      · rw [key_callback_down g scancode action mods ha]; exact ⟨rfl, rfl, rfl⟩
    · rw [key_callback_inactive g key scancode action mods ha]; exact ⟨rfl, rfl, rfl⟩
  · intro hk
    by_cases ha : action = GLFW_PRESS ∨ action = GLFW_REPEAT
    · rcases hk with hk | hk <;> subst hk
      · rw [key_callback_left g scancode action mods ha]; exact ⟨rfl, rfl, rfl⟩
      · rw [key_callback_right g scancode action mods ha]; exact ⟨rfl, rfl, rfl⟩
    · rw [key_callback_inactive g key scancode action mods ha]; exact ⟨rfl, rfl, rfl⟩
  · intro hk
    by_cases ha : action = GLFW_PRESS ∨ action = GLFW_REPEAT
    · rcases hk with hk | hk <;> subst hk
      · rw [key_callback_q g scancode action mods ha]; exact ⟨rfl, rfl⟩
      · rw [key_callback_e g scancode action mods ha]; exact ⟨rfl, rfl⟩
    · rw [key_callback_inactive g key scancode action mods ha]; exact ⟨rfl, rfl⟩
  · intro hk
    by_cases ha : action = GLFW_PRESS ∨ action = GLFW_REPEAT
    · rcases hk with hk | hk <;> subst hk
      · rw [key_callback_z g scancode action mods ha]; exact ⟨rfl, rfl⟩
      · rw [key_callback_x g scancode action mods ha]; exact ⟨rfl, rfl⟩
    · rw [key_callback_inactive g key scancode action mods ha]; exact ⟨rfl, rfl⟩
  · intro ha
    refine ⟨?_, ?_, ?_, ?_, ?_, ?_, ?_, ?_⟩ <;> intro hk <;> subst hk
    · rw [key_callback_up g scancode action mods ha]
    · rw [key_callback_down g scancode action mods ha]
    · rw [key_callback_left g scancode action mods ha]
    · rw [key_callback_right g scancode action mods ha]
    · rw [key_callback_q g scancode action mods ha]
    · rw [key_callback_e g scancode action mods ha]
    · rw [key_callback_z g scancode action mods ha]
    · rw [key_callback_x g scancode action mods ha]

/-- C9, counterexample: at the initial pose none of the eight mutators is idempotent; a
second press of the same key changes the pose again (for instance two presses of Up give
`translation.y = 0.10`, one press gives `0.05`). -/
theorem mutators_not_idempotent :
    (∀ key ∈ [GLFW_KEY_UP, GLFW_KEY_DOWN, GLFW_KEY_LEFT, GLFW_KEY_RIGHT, GLFW_KEY_Q,
        GLFW_KEY_E, GLFW_KEY_Z, GLFW_KEY_X],
      key_callback (key_callback (initialPose : Pose ℚ) key 0 GLFW_PRESS 0) key 0 GLFW_PRESS 0 ≠
        key_callback (initialPose : Pose ℚ) key 0 GLFW_PRESS 0) ∧
    (key_callback (initialPose : Pose ℚ) GLFW_KEY_UP 0 GLFW_PRESS 0).translation.y = 0.05 ∧
    (key_callback (key_callback (initialPose : Pose ℚ) GLFW_KEY_UP 0 GLFW_PRESS 0)
      GLFW_KEY_UP 0 GLFW_PRESS 0).translation.y = 0.10 := by
  have ha : GLFW_PRESS = GLFW_PRESS ∨ GLFW_PRESS = GLFW_REPEAT := Or.inl rfl
  refine ⟨?_, ?_, ?_⟩
  · intro key hk
    simp only [List.mem_cons, List.mem_singleton, List.not_mem_nil, or_false] at hk
    rcases hk with h | h | h | h | h | h | h | h <;> subst h <;> intro hEq
    · rw [key_callback_up _ _ _ _ ha, key_callback_up _ _ _ _ ha] at hEq
      have := congrArg (fun p => p.translation.y) hEq
      norm_num [initialPose] at this
    · rw [key_callback_down _ _ _ _ ha, key_callback_down _ _ _ _ ha] at hEq
      have := congrArg (fun p => p.translation.y) hEq
      norm_num [initialPose] at this
    · rw [key_callback_left _ _ _ _ ha, key_callback_left _ _ _ _ ha] at hEq
      have := congrArg (fun p => p.translation.x) hEq
      norm_num [initialPose] at this
    · rw [key_callback_right _ _ _ _ ha, key_callback_right _ _ _ _ ha] at hEq
      have := congrArg (fun p => p.translation.x) hEq
      norm_num [initialPose] at this
    · rw [key_callback_q _ _ _ _ ha, key_callback_q _ _ _ _ ha] at hEq
      have := congrArg (fun p => p.rotation) hEq
      norm_num [initialPose, radians] at this
    · rw [key_callback_e _ _ _ _ ha, key_callback_e _ _ _ _ ha] at hEq
      have := congrArg (fun p => p.rotation) hEq
      norm_num [initialPose, radians] at this
    · rw [key_callback_z _ _ _ _ ha, key_callback_z _ _ _ _ ha] at hEq
      have := congrArg (fun p => p.scale) hEq
      norm_num [initialPose] at this
    · rw [key_callback_x _ _ _ _ ha, key_callback_x _ _ _ _ ha] at hEq
      have := congrArg (fun p => p.scale) hEq
      norm_num [initialPose, stdMax] at this
  · rw [key_callback_up _ _ _ _ ha]
    norm_num [initialPose]
  · rw [key_callback_up _ _ _ _ ha, key_callback_up _ _ _ _ ha]
    norm_num [initialPose]

/-- C9, amended: a press or repeat of a recognised key applies its fixed step at every
call, so applying the same mutator twice gives the same pose as applying it once exactly
when the key is X (scale down) and the scale is at most 0.10, where both calls clamp to the
floor 0.05; the seven other mutators are never idempotent. -/
theorem mutator_twice_eq_once_iff {α : Type} [LinearOrderedField α] (g : Pose α)
    (key scancode action mods : Int)
    (ha : action = GLFW_PRESS ∨ action = GLFW_REPEAT)
    (hk : key ∈ [GLFW_KEY_UP, GLFW_KEY_DOWN, GLFW_KEY_LEFT, GLFW_KEY_RIGHT, GLFW_KEY_Q,
      GLFW_KEY_E, GLFW_KEY_Z, GLFW_KEY_X]) :
    key_callback (key_callback g key scancode action mods) key scancode action mods =
      key_callback g key scancode action mods ↔
    key = GLFW_KEY_X ∧ g.scale ≤ 0.10 := by
  have hs := step_pos (α := α)
  have hr := radians_five_pos (α := α)
  simp only [List.mem_cons, List.mem_singleton, List.not_mem_nil, or_false] at hk
  rcases hk with h | h | h | h | h | h | h | h <;> subst h
  · rw [key_callback_up _ _ _ _ ha, key_callback_up _ _ _ _ ha]
    constructor
    · intro hEq
      have h1 := congrArg (fun p => p.translation.y) hEq
      simp only at h1
      linarith
    · rintro ⟨h1, _⟩; exact absurd h1 (by decide)
  · rw [key_callback_down _ _ _ _ ha, key_callback_down _ _ _ _ ha]
    constructor
    · intro hEq
      have h1 := congrArg (fun p => p.translation.y) hEq
      simp only at h1
      linarith
    · rintro ⟨h1, _⟩; exact absurd h1 (by decide)
  · rw [key_callback_left _ _ _ _ ha, key_callback_left _ _ _ _ ha]
    constructor
    · intro hEq
      have h1 := congrArg (fun p => p.translation.x) hEq
      simp only at h1
      linarith
    · rintro ⟨h1, _⟩; exact absurd h1 (by decide)
  · rw [key_callback_right _ _ _ _ ha, key_callback_right _ _ _ _ ha]
    constructor
    · intro hEq
      have h1 := congrArg (fun p => p.translation.x) hEq
      simp only at h1
      linarith
    · rintro ⟨h1, _⟩; exact absurd h1 (by decide)
  · rw [key_callback_q _ _ _ _ ha, key_callback_q _ _ _ _ ha]
    constructor
    · intro hEq
      have h1 := congrArg (fun p => p.rotation) hEq
      simp only at h1
      linarith
    · rintro ⟨h1, _⟩; exact absurd h1 (by decide)
  · rw [key_callback_e _ _ _ _ ha, key_callback_e _ _ _ _ ha]
    constructor
    · intro hEq
      have h1 := congrArg (fun p => p.rotation) hEq
      simp only at h1
      linarith
    · rintro ⟨h1, _⟩; exact absurd h1 (by decide)
  · rw [key_callback_z _ _ _ _ ha, key_callback_z _ _ _ _ ha]
    constructor
    · intro hEq
      have h1 := congrArg (fun p => p.scale) hEq
      simp only at h1
      linarith
    · rintro ⟨h1, _⟩; exact absurd h1 (by decide)
  · rw [key_callback_x _ _ _ _ ha, key_callback_x _ _ _ _ ha]
    constructor
    · intro hEq
      have h1 := congrArg (fun p => p.scale) hEq
      simp only at h1
      exact ⟨rfl, (stdMax_twice_iff g.scale).mp h1⟩
    · rintro ⟨_, h1⟩
      have h2 := (stdMax_twice_iff g.scale).mpr h1
      show ({ g with scale := stdMax 0.05 (stdMax 0.05 (g.scale - 0.05) - 0.05) } : Pose α) =
        { g with scale := stdMax 0.05 (g.scale - 0.05) }
      rw [h2]

/-- Witness for the amended C9: at scale 0.10 a second press of X changes nothing. -/
theorem mutator_twice_eq_once_iff_witness :
    key_callback (key_callback (⟨⟨0, 0⟩, 0, 0.10⟩ : Pose ℚ) GLFW_KEY_X 0 GLFW_PRESS 0)
        GLFW_KEY_X 0 GLFW_PRESS 0 =
      key_callback (⟨⟨0, 0⟩, 0, 0.10⟩ : Pose ℚ) GLFW_KEY_X 0 GLFW_PRESS 0 :=
  (mutator_twice_eq_once_iff _ GLFW_KEY_X 0 GLFW_PRESS 0 (Or.inl rfl) (by simp)).mpr
    ⟨rfl, le_refl _⟩

/-! ## Claims about the transform composition -/

/-- C2: over the reals, for every pose and every local point `(x, y)` the matrix built by
the render loop (translate, rotate about Z, scale, applied to the identity) sends
`(x, y, 0, 1)` to `(tx + s (x cos r - y sin r), ty + s (x sin r + y cos r), 0, 1)`; the
matrix is the product `Translate(t) * Rotate(r) * Scale(s, s, 1)`; and the pose with
translation `(1, 0)`, rotation 90 degrees (`π / 2`) and scale 2 sends the local point
`(1, 0)` to the world point `(1, 2)`. -/
theorem transform_is_translate_rotate_scale (g : Pose ℝ) (x y : ℝ) :
    vertexShader (transform Real.cos Real.sin Real.sqrt g) { x := x, y := y } =
      { x := g.translation.x + g.scale * (x * Real.cos g.rotation - y * Real.sin g.rotation)
        y := g.translation.y + g.scale * (x * Real.sin g.rotation + y * Real.cos g.rotation)
        z := 0
        w := 1 } ∧
    (transform Real.cos Real.sin Real.sqrt g).toMatrix =
      specTranslate g.translation.x g.translation.y *
        specRotateZ (Real.cos g.rotation) (Real.sin g.rotation) *
        specScale g.scale g.scale 1 ∧
    vertexShader (transform Real.cos Real.sin Real.sqrt
        { translation := { x := 1, y := 0 }, rotation := Real.pi / 2, scale := 2 })
      { x := 1, y := 0 } = { x := 1, y := 2, z := 0, w := 1 } := by
  have key := fun p : Pose ℝ => transform_columns Real.cos Real.sin Real.sqrt Real.sqrt_one p
  refine ⟨?_, ?_, ?_⟩
  · rw [key]
    simp only [vertexShader, Mat4.mulVec, Vec4.add, Vec4.mulScalar]
    ext <;> norm_num <;> ring
  · rw [key]
    ext i j
    fin_cases i <;> fin_cases j <;>
      simp [Mat4.toMatrix, specTranslate, specRotateZ, specScale, Matrix.mul_apply,
        Fin.sum_univ_four, Matrix.vecHead, Matrix.vecTail] <;> ring
  · rw [key]
    simp only [vertexShader, Mat4.mulVec, Vec4.add, Vec4.mulScalar, Real.cos_pi_div_two,
      Real.sin_pi_div_two]
    ext <;> norm_num

/-- C6: with no key event applied, the initial pose (translation `(0, 0)`, rotation 0,
scale 1) is composed by the render loop into exactly the 4x4 identity matrix. -/
theorem initial_transform_is_identity :
    transform Real.cos Real.sin Real.sqrt (handleEvents (initialPose : Pose ℝ) []) = mat4 1 ∧
    (transform Real.cos Real.sin Real.sqrt (handleEvents (initialPose : Pose ℝ) [])).toMatrix =
      (1 : Matrix (Fin 4) (Fin 4) ℝ) := by
  have h : transform Real.cos Real.sin Real.sqrt (handleEvents (initialPose : Pose ℝ) []) =
      mat4 1 := by
    rw [transform_columns Real.cos Real.sin Real.sqrt Real.sqrt_one]
    simp only [handleEvents, List.foldl_nil, initialPose, mat4]
    ext <;> norm_num
  refine ⟨h, ?_⟩
  rw [h]
  ext i j
  fin_cases i <;> fin_cases j <;> simp [Mat4.toMatrix, mat4, Matrix.vecHead, Matrix.vecTail]

/-! ## Claims about the frame timer -/

/-- C3: for every sequence of clock readings fed to the frame timer (window start set to the
loop start time, counter 0), in particular for every non-decreasing one: each emitted
sample is stamped at least 1.0 s after the previous one, and the first at least 1.0 s after
the loop start; the timestamps are strictly increasing; every timestamp is at least 1.0 s
after the loop start; the timestamps are clock readings, in the order they were read; and an
iteration whose clock reading is less than 1.0 s after the loop start emits nothing. -/
theorem fps_emissions_spaced {α : Type} [LinearOrderedField α] (start : α)
    (readings : List α) :
    List.Chain (fun a b => b - a ≥ 1.0) start
      (timestamps (renderLoop start readings).csvFile) ∧
    List.Pairwise (fun a b => a < b) (timestamps (renderLoop start readings).csvFile) ∧
    (∀ t ∈ timestamps (renderLoop start readings).csvFile, t - start ≥ 1.0) ∧
    (timestamps (renderLoop start readings).csvFile).Sublist readings ∧
    (∀ c : α, c - start < 1.0 →
      (renderLoop start (readings ++ [c])).csvFile = (renderLoop start readings).csvFile) := by
  have h10 : (0 : α) < 1.0 := by norm_num
  have hchain : ∀ rs : List α, List.Chain (fun a b => b - a ≥ 1.0) start
      (timestamps (renderLoop start rs).csvFile) := fun rs =>
    chain_of_windowLengths start _ (renderLoop_invariant start rs).2.1
  have hlt : ∀ rs : List α, List.Pairwise (fun a b : α => a < b)
      (start :: timestamps (renderLoop start rs).csvFile) := by
    intro rs
    have hc : List.Chain (fun a b : α => a < b) start
        (timestamps (renderLoop start rs).csvFile) := by
      refine List.Chain.imp ?_ (hchain rs)
      intro a b hab
      have : (1.0 : α) ≤ b - a := hab
      linarith
    exact List.chain_iff_pairwise.mp hc
  have hfar : ∀ rs : List α, ∀ t ∈ timestamps (renderLoop start rs).csvFile,
      t - start ≥ 1.0 := by
    intro rs
    have hgen : ∀ (l : List α) (a : α), start ≤ a → List.Chain (fun a b => b - a ≥ 1.0) a l →
        ∀ t ∈ l, t - start ≥ 1.0 := by
      intro l
      induction l with
      | nil => intro a _ _ t ht; cases ht
      | cons b l ih =>
        intro a ha hch t ht
        rw [List.chain_cons] at hch
        have hb : (1.0 : α) ≤ b - a := hch.1
        rcases List.mem_cons.mp ht with h | h
        · rw [h]
          show (1.0 : α) ≤ b - start
          linarith
        · exact ih b (by linarith) hch.2 t h
    exact hgen _ start (le_refl _) (hchain rs)
  refine ⟨hchain readings, (List.pairwise_cons.mp (hlt readings)).2, hfar readings,
    (renderLoop_invariant start readings).2.2.2.2.2, ?_⟩
  intro c hc
  rw [renderLoop_snoc]
  by_cases he : c - (renderLoop start readings).lastTime ≥ 1.0
  · exfalso
    have hmem : c ∈ timestamps (renderLoop start (readings ++ [c])).csvFile := by
      rw [renderLoop_snoc, frameTimerStep_emit _ _ he]
      simp [timestamps]
    have := hfar (readings ++ [c]) c hmem
    exact absurd this (not_le.mpr hc)
  · rw [frameTimerStep_quiet _ _ he]

/-- C4: at an iteration where the time elapsed since the window start is at least 1.0, the
timer emits the sample `(currentTime, fps)` with `fps` the frame counter including the
current iteration divided by `currentTime - lastTime`, shows the same value in the title,
sets the counter to 0 and the window start to `currentTime`; when the counter reaches
exactly 60 and the elapsed time is exactly 1.0, the emitted FPS is 60. -/
theorem fps_sample_on_emission {α : Type} [LinearOrderedField α] (t : FrameTimer α)
    (currentTime : α) (h : currentTime - t.lastTime ≥ 1.0) :
    (frameTimerStep t currentTime).csvFile = t.csvFile ++
      [(currentTime, ((t.nbFrames + 1 : Int) : α) / (currentTime - t.lastTime))] ∧
    (frameTimerStep t currentTime).title =
      some (((t.nbFrames + 1 : Int) : α) / (currentTime - t.lastTime)) ∧
    (frameTimerStep t currentTime).nbFrames = 0 ∧
    (frameTimerStep t currentTime).lastTime = currentTime ∧
    (t.nbFrames + 1 = 60 → currentTime - t.lastTime = 1.0 →
      (frameTimerStep t currentTime).csvFile = t.csvFile ++ [(currentTime, 60.0)]) := by
  rw [frameTimerStep_emit t currentTime h]
  refine ⟨rfl, rfl, rfl, rfl, ?_⟩
  intro hn he
  show t.csvFile ++ [(currentTime, ((t.nbFrames + 1 : Int) : α) / (currentTime - t.lastTime))] =
    t.csvFile ++ [(currentTime, 60.0)]
  rw [hn, he]
  norm_num

/-- Witness for C4: 59 iterations at clock reading 0.5 after a start at 0, then one at
reading 1, evaluated over the rationals: the 60th iteration emits the sample `(1, 60)`
and restarts the window. -/
theorem fps_sample_on_emission_witness :
    (renderLoop (0 : ℚ) (List.replicate 59 0.5 ++ [1])).csvFile = [(1, 60)] ∧
    (renderLoop (0 : ℚ) (List.replicate 59 0.5 ++ [1])).nbFrames = 0 ∧
    (renderLoop (0 : ℚ) (List.replicate 59 0.5 ++ [1])).lastTime = 1 := by
  have hpre : renderLoop (0 : ℚ) (List.replicate 59 0.5) =
      { lastTime := 0, nbFrames := 59, csvFile := [], title := none } := by
    norm_num [renderLoop, FrameTimer.init, frameTimerStep, List.replicate]
  have h := fps_sample_on_emission (renderLoop (0 : ℚ) (List.replicate 59 0.5)) 1
    (by rw [hpre]; norm_num)
  rw [renderLoop_snoc]
  refine ⟨?_, h.2.2.1, h.2.2.2.1⟩
  rw [h.2.2.2.2 (by rw [hpre]; norm_num) (by rw [hpre]; norm_num), hpre]
  norm_num

/-- C10: no frame is lost by the FPS windowing.  After any run of the loop, the sum over
the emitted samples of FPS times window length, plus the current frame counter, equals the
number of iterations executed; every window that closed is at least 1.0 long, so the
division that computes FPS is never by zero; and the counter lies between 0 and the number
of iterations.  The state after each iteration of a run is the state after the run cut
there, so this holds after every iteration. -/
theorem no_frame_lost {α : Type} [LinearOrderedField α] (start : α) (readings : List α) :
    countedFrames start (renderLoop start readings).csvFile +
      (((renderLoop start readings).nbFrames : Int) : α) = (readings.length : α) ∧
    (∀ w ∈ windowLengths start (renderLoop start readings).csvFile, w ≥ 1.0 ∧ w ≠ 0) ∧
    (∀ c : α, (renderLoop start (readings ++ [c])).csvFile ≠ (renderLoop start readings).csvFile →
      c - (renderLoop start readings).lastTime ≥ 1.0 ∧
      c - (renderLoop start readings).lastTime ≠ 0) ∧
    0 ≤ (renderLoop start readings).nbFrames ∧
    (renderLoop start readings).nbFrames ≤ (readings.length : Int) := by
  have h10 : (0 : α) < 1.0 := by norm_num
  obtain ⟨_, h2, h3, h4, h5, _⟩ := renderLoop_invariant start readings
  refine ⟨h3, ?_, ?_, h4, h5⟩
  · intro w hw
    exact ⟨h2 w hw, ne_of_gt (lt_of_lt_of_le h10 (h2 w hw))⟩
  · intro c hne
    by_cases he : c - (renderLoop start readings).lastTime ≥ 1.0
    · exact ⟨he, ne_of_gt (lt_of_lt_of_le h10 he)⟩
    · exfalso
      apply hne
      rw [renderLoop_snoc, frameTimerStep_quiet _ _ he]

/-! ## Claims about the geometry -/

/-- C8: for every segment count `n ≥ 0` the vertex list built by `createCircle(n)` is the
centre `(0, 0)` followed by the `n + 1` ring vertices
`(0.5 cos (i * angleStep), 0.5 sin (i * angleStep))`, `i = 0 .. n`, so it holds `2 (n + 2)`
floats, that is `n + 2` vertices; for the default `segments = 50` that is 52 vertices, the
count of the circle's triangle-fan draw call; the rectangle's list holds 6 vertices, the
count of its triangle-list draw call.  For `n = 0` the angle step is a quotient by zero;
its value plays no part in the counts. -/
theorem vertex_counts_match_draw_calls {α : Type} [LinearOrderedField α] (cos sin : α → α)
    (n : Nat) :
    createCircle cos sin (n : Int) =
      0.0 :: 0.0 :: (List.range (n + 1)).flatMap (fun i =>
        [0.5 * cos ((i : α) * (2.0 * 3.1415926 / (n : α))),
         0.5 * sin ((i : α) * (2.0 * 3.1415926 / (n : α)))]) ∧
    (createCircle cos sin (n : Int)).length = 2 * (n + 2) ∧
    vertexCount (createCircle cos sin (n : Int)) = n + 2 ∧
    vertexCount (createCircle cos sin) = 52 ∧
    circleDraw.mode = Primitive.GL_TRIANGLE_FAN ∧
    circleDraw.first = 0 ∧
    circleDraw.count = (vertexCount (createCircle cos sin) : Int) ∧
    vertexCount (createRectangle : List α) = 6 ∧
    rectangleDraw.mode = Primitive.GL_TRIANGLES ∧
    rectangleDraw.first = 0 ∧
    rectangleDraw.count = (vertexCount (createRectangle : List α) : Int) := by
  have hlist : ∀ m : Nat, createCircle cos sin (m : Int) =
      0.0 :: 0.0 :: (List.range (m + 1)).flatMap (fun i =>
        [0.5 * cos ((i : α) * (2.0 * 3.1415926 / (m : α))),
         0.5 * sin ((i : α) * (2.0 * 3.1415926 / (m : α)))]) := by
    intro m
    unfold createCircle
    simp only []
    rw [createCircleLoop_eq cos sin (m : Int) _ (m + 1) 0 _ (by push_cast; ring)]
    simp only [zero_add, Int.cast_natCast, List.cons_append, List.nil_append]
  have hlen : ∀ m : Nat, (createCircle cos sin (m : Int)).length = 2 * (m + 2) := by
    intro m
    rw [hlist m]
    simp only [List.length_cons, List.length_flatMap, Function.comp_def, List.length_nil,
      List.map_const', List.length_range, List.sum_replicate, smul_eq_mul]
    omega
  have hcount : ∀ m : Nat, vertexCount (createCircle cos sin (m : Int)) = m + 2 := by
    intro m
    unfold vertexCount
    rw [hlen m]
    omega
  have h50 : vertexCount (createCircle cos sin) = 52 := hcount 50
  have hrect : vertexCount (createRectangle : List α) = 6 := by
    simp [vertexCount, createRectangle]
  refine ⟨hlist n, hlen n, hcount n, h50, rfl, rfl, ?_, hrect, rfl, rfl, ?_⟩
  · rw [h50]; rfl
  · rw [hrect]; rfl

end Renderer
